import Mathlib

/-!
Verification development for the dublab_mixcloud_uploaderz repository
(single source file dublab_mixcloud_uploaderz.py).

The Python program is shallowly embedded below.  Strings are modelled as
lists of characters; each Python string operation used by the program
(str.rsplit with maxsplit 1, str.replace, str.split on a one-character
separator, str.strip, str.lower) is given an executable model with the
same semantics.  Stateful methods are modelled as pure functions that
take and return explicit state; the directory-polling loop is modelled
as a function over a finite list of directory listings together with an
event trace.  A Python exception that a method does not catch is made
explicit in the return type of the model.
-/

set_option autoImplicit false

namespace Dublab

/-! ### Models of the Python string primitives -/

/-- Model of Python s.rsplit(sep, 1) for a one-character separator, here
the space character as used on line 164 of the source.  It returns none
when the string contains no space (Python: a one-element list), and
some (before, after) where the split is at the last space (Python: a
two-element list). -/
def rsplit1 : List Char → Option (List Char × List Char)
  | [] => none
  | c :: rest =>
    match rsplit1 rest with
    | some (a, b) => some (c :: a, b)
    | none => if c = ' ' then some ([], rest) else none

/-- Model of Python s.replace with the pattern .mp3 and an empty
replacement (lines 167 and 176 of the source): every occurrence of the
four-character substring is removed, scanning left to right. -/
def replaceMp3 : List Char → List Char
  | [] => []
  | [c1] => [c1]
  | [c1, c2] => [c1, c2]
  | [c1, c2, c3] => [c1, c2, c3]
  | c1 :: c2 :: c3 :: c4 :: rest =>
    if c1 = '.' ∧ c2 = 'm' ∧ c3 = 'p' ∧ c4 = '3' then replaceMp3 rest
    else c1 :: replaceMp3 (c2 :: c3 :: c4 :: rest)

/-- Model of Python s.split(sep) for a one-character separator (used
with the dot on line 169 and with the semicolon on line 153 of the
source).  Splitting the empty string yields one empty fragment, exactly
as in Python. -/
def splitOnChar (sep : Char) : List Char → List (List Char)
  | [] => [[]]
  | c :: rest =>
    if c = sep then [] :: splitOnChar sep rest
    else
      match splitOnChar sep rest with
      | [] => [[c]]
      | p :: ps => (c :: p) :: ps

/-- Model of Python s.strip() (used on line 60 of the source when the
token file is read back): leading and trailing whitespace is removed. -/
def strip (l : List Char) : List Char :=
  ((l.dropWhile Char.isWhitespace).reverse.dropWhile Char.isWhitespace).reverse

/-- Model of Python s.lower() as used on line 187 of the source. -/
def lowerList (l : List Char) : List Char :=
  l.map Char.toLower

/-! ### Filename parsing (MixcloudUploader.upload, lines 163-177) -/

/-- The values of the local variables of MixcloudUploader.upload that
are produced by the filename-parsing block, lines 163-177 of the
source.  The field dateStrTitle is an Option because the Python local
date_str_title is only assigned in the branch where the date fragment
splits into exactly three components; none models the unbound local.
The field warned records that the warning of line 173 was logged. -/
structure ParseResult where
  showName : List Char
  date : Option (List Char × List Char × List Char)
  dateStr : List Char
  dateStrTitle : Option (List Char)
  warned : Bool
  deriving DecidableEq, Repr

/-- Model of the filename-parsing block of MixcloudUploader.upload
(lines 163-177 of the source): the filename is rsplit on the last
space; with two parts the second part has every occurrence of .mp3
removed and is split on dots; exactly three components give the date,
anything else is caught (logged) and leaves date_str empty and
date_str_title unassigned; with one part the whole filename with every
occurrence of .mp3 removed is the show name. -/
def parseFilename (filename : List Char) : ParseResult :=
  match rsplit1 filename with
  | some (showName, datePartRaw) =>
    match splitOnChar '.' (replaceMp3 datePartRaw) with
    | [day, month, year] =>
      { showName := showName
        date := some (day, month, year)
        dateStr := year ++ '-' :: month ++ '-' :: day
        dateStrTitle := some (' ' :: (year ++ '.' :: month ++ '.' :: day) ++ [' '])
        warned := false }
    | _ =>
      { showName := showName, date := none, dateStr := [],
        dateStrTitle := none, warned := true }
  | none =>
    { showName := replaceMp3 filename, date := none, dateStr := [],
      dateStrTitle := none, warned := false }

/-! ### Metadata catalog (MixcloudUploader.load_metadata, lines 136-156) -/

/-- One catalog record as built by load_metadata (line 154 of the
source): bio, tags (already split on semicolons) and host. -/
structure ShowMeta where
  bio : List Char
  tags : List (List Char)
  host : List Char
  deriving DecidableEq, Repr

/-- Model of the tag-cell handling of load_metadata (line 153 of the
source): the cell is split on semicolons, each fragment is stripped,
and fragments that strip to the empty string are dropped. -/
def parseTags (cell : List Char) : List (List Char) :=
  ((splitOnChar ';' cell).map strip).filter (fun t => ¬t.isEmpty)

/-- Model of self.metadata.get(show_name, \x7b\x7d) combined with the
meta.get lookups of lines 179-181 of the source: a missing show yields
empty bio, host and tag list. -/
def lookupShow (metadata : List (List Char × ShowMeta)) (name : List Char) : ShowMeta :=
  match metadata.find? (fun p => p.1 == name) with
  | some p => p.2
  | none => { bio := [], tags := [], host := [] }

/-! ### Submission building (MixcloudUploader.upload, lines 179-200) -/

/-- The textual part of the multipart POST body built on lines 193-200
of the source: the name field, the description field, and the indexed
tag fields in order. -/
structure Submission where
  name : List Char
  description : List Char
  tagFields : List (List Char × List Char)
  deriving DecidableEq, Repr

/-- The key of the i-th indexed tag field, Python f-string
tags-{i}-tag on line 200 of the source. -/
def tagKey (i : Nat) : List Char :=
  ("tags-".data) ++ (Nat.repr i).data ++ ("-tag".data)

/-- Model of lines 182-200 of the source, reached only when the local
date_str_title is bound: tags are truncated to the first five, the
title is show_name + " " + date_str_title + " w/ " + host, and the
tracklist line is appended to the bio exactly when date_str is
non-empty (Python truthiness of the string). -/
def buildSubmission (showName dateStr dateStrTitle : List Char) (meta : ShowMeta) :
    Submission :=
  let tagsList := meta.tags.take 5
  { name := showName ++ ' ' :: dateStrTitle ++ (" w/ ".data) ++ meta.host
    description :=
      if dateStr.isEmpty then meta.bio
      else meta.bio ++ ("\n\nTracklist: http://dublab.cat/shows/".data) ++
        lowerList showName ++ '/' :: dateStr
    tagFields := tagsList.enum.map (fun p => (tagKey p.1, p.2)) }

/-! ### Token acquisition and persistence (MixcloudAuth, lines 46-67) -/

/-- The mutable authentication state: the in-memory token
(self.token, where Lean's none models Python's None) and the contents
of the token file (none models an absent file). -/
structure AuthState where
  token : Option (List Char)
  stored : Option (List Char)
  deriving DecidableEq, Repr

/-- Python truthiness of self.token: None and the empty string are
falsy, every other string is truthy. -/
def optTruthy : Option (List Char) → Bool
  | none => false
  | some t => ¬t.isEmpty

/-- The observable outcome of one MixcloudAuth.get_token call: the
returned token, the state afterwards, and whether run_oauth_flow was
invoked. -/
structure GetTokenResult where
  token : List Char
  state : AuthState
  ranOauth : Bool
  deriving DecidableEq, Repr

/-- Model of MixcloudAuth.get_token (lines 54-67 of the source).  The
in-memory token is returned when truthy; otherwise the token file, when
present, is read and its stripped contents stored in memory; when the
result is still falsy the OAuth flow runs (its successful result is the
parameter oauthToken), the new token is written to the file and cached.
-/
def get_token (s : AuthState) (oauthToken : List Char) : GetTokenResult :=
  match s.token with
  | some t =>
    if t.isEmpty then getTokenNoMem s oauthToken else { token := t, state := s, ranOauth := false }
  | none => getTokenNoMem s oauthToken
where
  /-- The part of get_token after the falsy in-memory check. -/
  getTokenNoMem (s : AuthState) (oauthToken : List Char) : GetTokenResult :=
    let tok1 : Option (List Char) :=
      match s.stored with
      | some contents => some (strip contents)
      | none => s.token
    match tok1 with
    | some t =>
      if t.isEmpty then
        { token := oauthToken,
          state := { token := some oauthToken, stored := some oauthToken },
          ranOauth := true }
      else { token := t, state := { s with token := some t }, ranOauth := false }
    | none =>
      { token := oauthToken,
        state := { token := some oauthToken, stored := some oauthToken },
        ranOauth := true }

/-! ### The upload call (MixcloudUploader.upload, lines 158-223) -/

/-- The outcome of the network call of line 204: either a response with
a status code, or an exception raised by requests.post. -/
inductive NetResult : Type
  | ok (status : Nat)
  | exn
  deriving DecidableEq, Repr

/-- How one call of MixcloudUploader.upload exits: returning True,
returning False, raising NameError while building the title (line 183,
the local date_str_title is unbound), or re-raising the network
exception after the finally block. -/
inductive UploadExit : Type
  | retTrue
  | retFalse
  | nameError
  | netExn
  deriving DecidableEq, Repr

/-- The observable behaviour of one MixcloudUploader.upload call: how
it exits, which file handles it opened and closed, how many POSTs it
made, the textual body it submitted (none when no POST happened), which
log lines it produced, and whether the file move was attempted. -/
structure UploadOutput where
  exit : UploadExit
  audioOpened : Bool
  audioClosed : Bool
  picOpened : Bool
  picClosed : Bool
  posts : Nat
  submitted : Option Submission
  loggedDateWarning : Bool
  loggedAuthWarning : Bool
  loggedRemoveError : Bool
  moveAttempted : Bool
  deriving DecidableEq, Repr

/-- Model of MixcloudUploader.upload (lines 158-223 of the source).
Inputs beyond the filename: the catalog, whether picture.jpg exists for
the show (line 190), the network outcome of requests.post, whether
os.remove of the token file raises OSError (line 216), the auth state
and the value a successful OAuth flow would produce.  The audio handle
is opened on line 162 before parsing; when the title construction on
line 183 raises NameError the call exits with the audio handle open,
without a POST, because only the try block of lines 203-207 closes the
handles.  On 200 the move is attempted; on 401 or 403 the token file is
removed (an OSError is caught and logged) and the in-memory token is
set to None; any other status only logs. -/
def upload (filename : List Char) (metadata : List (List Char × ShowMeta))
    (pictureExists : Bool) (net : NetResult) (removeFails : Bool)
    (st : AuthState) (oauthToken : List Char) : UploadOutput × AuthState :=
  let st1 := (get_token st oauthToken).state
  let pr := parseFilename filename
  let meta := lookupShow metadata pr.showName
  match pr.dateStrTitle with
  | none =>
    ({ exit := .nameError, audioOpened := true, audioClosed := false,
       picOpened := false, picClosed := false, posts := 0, submitted := none,
       loggedDateWarning := pr.warned, loggedAuthWarning := false,
       loggedRemoveError := false, moveAttempted := false }, st1)
  | some dTitle =>
    let sub := buildSubmission pr.showName pr.dateStr dTitle meta
    match net with
    | .exn =>
      ({ exit := .netExn, audioOpened := true, audioClosed := true,
         picOpened := pictureExists, picClosed := pictureExists, posts := 1,
         submitted := some sub, loggedDateWarning := pr.warned,
         loggedAuthWarning := false, loggedRemoveError := false,
         moveAttempted := false }, st1)
    | .ok status =>
      if status = 200 then
        ({ exit := .retTrue, audioOpened := true, audioClosed := true,
           picOpened := pictureExists, picClosed := pictureExists, posts := 1,
           submitted := some sub, loggedDateWarning := pr.warned,
           loggedAuthWarning := false, loggedRemoveError := false,
           moveAttempted := true }, st1)
      else if status = 401 ∨ status = 403 then
        ({ exit := .retFalse, audioOpened := true, audioClosed := true,
           picOpened := pictureExists, picClosed := pictureExists, posts := 1,
           submitted := some sub, loggedDateWarning := pr.warned,
           loggedAuthWarning := true, loggedRemoveError := removeFails,
           moveAttempted := false },
         { token := none, stored := if removeFails then st1.stored else none })
      else
        ({ exit := .retFalse, audioOpened := true, audioClosed := true,
           picOpened := pictureExists, picClosed := pictureExists, posts := 1,
           submitted := some sub, loggedDateWarning := pr.warned,
           loggedAuthWarning := false, loggedRemoveError := false,
           moveAttempted := false }, st1)

/-! ### The polling loop (FolderWatcher.start, lines 246-253) -/

/-- A Python call that either returns a value or raises an exception
the caller does not catch. -/
inductive PyResult (α : Type) : Type
  | ok (a : α)
  | exn
  deriving DecidableEq, Repr

/-- The two per-file operations of the loop body, lines 251-252 of the
source, recorded as a trace: adding the file to self.seen_files and
invoking self.uploader.upload on it. -/
inductive Event : Type
  | markSeen (f : String)
  | invoke (f : String)
  deriving DecidableEq, Repr

/-- The file of an invoke event. -/
def invokedFile : Event → Option String
  | .invoke f => some f
  | .markSeen _ => none

/-- Model of one pass of the for loop of lines 249-252 of the source
over one directory listing: every file already in seen is skipped;
otherwise it is first added to seen and then uploaded.  The loop body
has no exception handler, so an exception from upload aborts the pass.
Returns the event trace and either the new seen set or the exception. -/
def processListing (uploadFn : String → PyResult Bool) :
    List String → List String → List Event × PyResult (List String)
  | seen, [] => ([], PyResult.ok seen)
  | seen, f :: fs =>
    if f ∈ seen then processListing uploadFn seen fs
    else
      match uploadFn f with
      | PyResult.ok _ =>
        let p := processListing uploadFn (f :: seen) fs
        (Event.markSeen f :: Event.invoke f :: p.1, p.2)
      | PyResult.exn => ([Event.markSeen f, Event.invoke f], PyResult.exn)

/-- Model of the while loop of FolderWatcher.start (lines 248-253 of
the source) over a finite sequence of directory listings, one per
cycle.  There is no exception handler anywhere in start, so an
exception raised while processing a listing propagates out of the loop
and no further cycle runs. -/
def runPoller (uploadFn : String → PyResult Bool) :
    List String → List (List String) → List Event × PyResult (List String)
  | seen, [] => ([], PyResult.ok seen)
  | seen, listing :: rest =>
    match processListing uploadFn seen listing with
    | (evs, PyResult.ok seen2) =>
      let p := runPoller uploadFn seen2 rest
      (evs ++ p.1, p.2)
    | (evs, PyResult.exn) => (evs, PyResult.exn)

/-- Checks along an event trace that every invoked file was marked seen
earlier in the trace (relative to an initial marked set). -/
def invokesMarked : List String → List Event → Bool
  | _, [] => true
  | marked, Event.markSeen f :: evs => invokesMarked (f :: marked) evs
  | marked, Event.invoke f :: evs =>
    if f ∈ marked then invokesMarked marked evs else false

/-- The marked set accumulated by a trace, consed onto an initial one. -/
def marksRevAcc : List Event → List String → List String
  | [], m => m
  | Event.markSeen f :: evs, m => marksRevAcc evs (f :: m)
  | Event.invoke _ :: evs, m => marksRevAcc evs m

/-! ### Spec-side definition for the refinement in claim C3 -/

/-- The show-name normalisation as the specification words it: the
filename with a trailing .mp3 suffix stripped (only a suffix, unlike
the replace call of the source which removes every occurrence). -/
def specStripTrailingMp3 (l : List Char) : List Char :=
  if l.reverse.take 4 = ['3', 'p', 'm', '.'] then (l.reverse.drop 4).reverse else l

/-! ### Helper lemmas about the string primitives -/

theorem digit_ne_dot {c : Char} (h : c.isDigit = true) : c ≠ '.' := by
  intro hc; subst hc; exact absurd h (by decide)

theorem digit_ne_space {c : Char} (h : c.isDigit = true) : c ≠ ' ' := by
  intro hc; subst hc; exact absurd h (by decide)

theorem digit_ne_m {c : Char} (h : c.isDigit = true) : c ≠ 'm' := by
  intro hc; subst hc; exact absurd h (by decide)

theorem rsplit1_eq_none {l : List Char} (h : ∀ c ∈ l, c ≠ ' ') :
    rsplit1 l = none := by
  induction l with
  | nil => rfl
  | cons c rest ih =>
    have hc : c ≠ ' ' := h c (by simp)
    have : rsplit1 rest = none := ih (fun x hx => h x (by simp [hx]))
    simp [rsplit1, this, hc]

theorem rsplit1_append {a b : List Char} (h : ∀ c ∈ b, c ≠ ' ') :
    rsplit1 (a ++ ' ' :: b) = some (a, b) := by
  induction a with
  | nil => simp [rsplit1, rsplit1_eq_none h]
  | cons c a ih => simp [rsplit1, ih]

theorem replaceMp3_cons_ne {c : Char} (l : List Char) (h : c ≠ '.') :
    replaceMp3 (c :: l) = c :: replaceMp3 l := by
  match l with
  | [] => rfl
  | [a] => rfl
  | [a, b] => rfl
  | a :: b :: d :: t =>
    rw [replaceMp3, if_neg (fun hc => h hc.1)]

theorem replaceMp3_digits_append {d : List Char} (l : List Char)
    (hd : ∀ c ∈ d, c.isDigit = true) :
    replaceMp3 (d ++ l) = d ++ replaceMp3 l := by
  induction d with
  | nil => rfl
  | cons c d ih =>
    have hc : c ≠ '.' := digit_ne_dot (hd c (by simp))
    rw [List.cons_append, replaceMp3_cons_ne _ hc,
      ih (fun x hx => hd x (by simp [hx])), List.cons_append]

theorem replaceMp3_dot_cons {c : Char} (l : List Char) (h : c ≠ 'm') :
    replaceMp3 ('.' :: c :: l) = '.' :: replaceMp3 (c :: l) := by
  match l with
  | [] => rfl
  | [a] => rfl
  | a :: b :: t =>
    rw [replaceMp3, if_neg (fun hc => h hc.2.1)]

theorem replaceMp3_dot {rest : List Char} (h : rest.head? ≠ some 'm') :
    replaceMp3 ('.' :: rest) = '.' :: replaceMp3 rest := by
  match rest with
  | [] => rfl
  | c :: l => exact replaceMp3_dot_cons l (fun hc => h (by simp [hc]))

theorem replaceMp3_digits_dot {d : List Char} (rest : List Char)
    (hd : ∀ c ∈ d, c.isDigit = true) (h : rest.head? ≠ some 'm') :
    replaceMp3 (d ++ '.' :: rest) = d ++ '.' :: replaceMp3 rest := by
  rw [replaceMp3_digits_append _ hd, replaceMp3_dot h]

theorem splitOnChar_eq_single {sep : Char} {l : List Char}
    (h : ∀ c ∈ l, c ≠ sep) : splitOnChar sep l = [l] := by
  induction l with
  | nil => rfl
  | cons c rest ih =>
    have hc : c ≠ sep := h c (by simp)
    have : splitOnChar sep rest = [rest] := ih (fun x hx => h x (by simp [hx]))
    simp [splitOnChar, this, hc]

theorem splitOnChar_append {sep : Char} {a : List Char} (l : List Char)
    (h : ∀ c ∈ a, c ≠ sep) :
    splitOnChar sep (a ++ sep :: l) = a :: splitOnChar sep l := by
  induction a with
  | nil => simp [splitOnChar]
  | cons c a ih =>
    have hc : c ≠ sep := h c (by simp)
    have := ih (fun x hx => h x (by simp [hx]))
    simp [splitOnChar, this, hc]

/-! ### Helper lemmas about parseFilename -/

theorem digits_no_dot {d : List Char} (hd : ∀ c ∈ d, c.isDigit = true) :
    ∀ c ∈ d, c ≠ '.' := fun c hc => digit_ne_dot (hd c hc)

/-- The date part of a well-formed dated filename, as the raw last
space-separated fragment of the filename. -/
def datePartRaw (dd mm yy : List Char) : List Char :=
  dd ++ '.' :: (mm ++ '.' :: (yy ++ ['.', 'm', 'p', '3']))

theorem replaceMp3_datePartRaw {dd mm yy : List Char}
    (hdd : ∀ c ∈ dd, c.isDigit = true) (hmm : ∀ c ∈ mm, c.isDigit = true)
    (hyy : ∀ c ∈ yy, c.isDigit = true) (hm : mm ≠ []) (hy : yy ≠ []) :
    replaceMp3 (datePartRaw dd mm yy) = dd ++ '.' :: (mm ++ '.' :: yy) := by
  have hmhead : (mm ++ '.' :: (yy ++ ['.', 'm', 'p', '3'])).head? ≠ some 'm' := by
    match mm with
    | [] => exact absurd rfl hm
    | c :: t =>
      have : c ≠ 'm' := digit_ne_m (hmm c (by simp))
      simp [this]
  have hyhead : (yy ++ ['.', 'm', 'p', '3']).head? ≠ some 'm' := by
    match yy with
    | [] => exact absurd rfl hy
    | c :: t =>
      have : c ≠ 'm' := digit_ne_m (hyy c (by simp))
      simp [this]
  rw [datePartRaw, replaceMp3_digits_dot _ hdd hmhead,
    replaceMp3_digits_dot _ hmm hyhead, replaceMp3_digits_append _ hyy]
  have h4 : replaceMp3 ['.', 'm', 'p', '3'] = [] := rfl
  rw [h4, List.append_nil]

theorem splitOnChar_date {dd mm yy : List Char}
    (hdd : ∀ c ∈ dd, c.isDigit = true) (hmm : ∀ c ∈ mm, c.isDigit = true)
    (hyy : ∀ c ∈ yy, c.isDigit = true) :
    splitOnChar '.' (dd ++ '.' :: (mm ++ '.' :: yy)) = [dd, mm, yy] := by
  rw [splitOnChar_append _ (digits_no_dot hdd),
    splitOnChar_append _ (digits_no_dot hmm),
    splitOnChar_eq_single (digits_no_dot hyy)]

theorem datePartRaw_no_space {dd mm yy : List Char}
    (hdd : ∀ c ∈ dd, c.isDigit = true) (hmm : ∀ c ∈ mm, c.isDigit = true)
    (hyy : ∀ c ∈ yy, c.isDigit = true) :
    ∀ c ∈ datePartRaw dd mm yy, c ≠ ' ' := by
  intro c hc
  rw [datePartRaw] at hc
  rcases List.mem_append.1 hc with h | h
  · exact digit_ne_space (hdd c h)
  rcases List.mem_cons.1 h with rfl | h
  · decide
  rcases List.mem_append.1 h with h | h
  · exact digit_ne_space (hmm c h)
  rcases List.mem_cons.1 h with rfl | h
  · decide
  rcases List.mem_append.1 h with h | h
  · exact digit_ne_space (hyy c h)
  · simp only [List.mem_cons] at h
    rcases h with rfl | rfl | rfl | rfl | h
    · decide
    · decide
    · decide
    · decide
    · simp at h

/-- The parse of a dated filename: the show name is everything before
the last space and the date components are recovered in order. -/
theorem parseFilename_dated {sh dd mm yy : List Char}
    (hdd : ∀ c ∈ dd, c.isDigit = true) (hmm : ∀ c ∈ mm, c.isDigit = true)
    (hyy : ∀ c ∈ yy, c.isDigit = true) (hm : mm ≠ []) (hy : yy ≠ []) :
    parseFilename (sh ++ ' ' :: datePartRaw dd mm yy) =
      { showName := sh, date := some (dd, mm, yy),
        dateStr := yy ++ '-' :: mm ++ '-' :: dd,
        dateStrTitle := some (' ' :: (yy ++ '.' :: mm ++ '.' :: dd) ++ [' ']),
        warned := false } := by
  simp only [parseFilename, rsplit1_append (datePartRaw_no_space hdd hmm hyy),
    replaceMp3_datePartRaw hdd hmm hyy hm hy, splitOnChar_date hdd hmm hyy]

/-- The parse of a filename without any space. -/
theorem parseFilename_nospace {fn : List Char} (h : ∀ c ∈ fn, c ≠ ' ') :
    parseFilename fn =
      { showName := replaceMp3 fn, date := none, dateStr := [],
        dateStrTitle := none, warned := false } := by
  rw [parseFilename, rsplit1_eq_none h]

/-- The parse of a filename whose last space-separated fragment is a
malformed date: the parse failure is caught, the warning flag is set,
and the local date_str_title stays unbound. -/
theorem parseFilename_malformed {fn a b : List Char} (h : rsplit1 fn = some (a, b))
    (hlen : (splitOnChar '.' (replaceMp3 b)).length ≠ 3) :
    parseFilename fn =
      { showName := a, date := none, dateStr := [],
        dateStrTitle := none, warned := true } := by
  rcases L : splitOnChar '.' (replaceMp3 b) with _ | ⟨x, _ | ⟨y, _ | ⟨z, _ | ⟨w, t⟩⟩⟩⟩
  · simp only [parseFilename, h, L]
  · simp only [parseFilename, h, L]
  · simp only [parseFilename, h, L]
  · rw [L] at hlen; exact absurd rfl hlen
  · simp only [parseFilename, h, L]

/-- Without a successfully parsed three-component date the local
date_str_title is unbound. -/
theorem parseFilename_title_none {fn : List Char}
    (h : rsplit1 fn = none ∨
      ∃ a b, rsplit1 fn = some (a, b) ∧ (splitOnChar '.' (replaceMp3 b)).length ≠ 3) :
    (parseFilename fn).dateStrTitle = none := by
  rcases h with h | ⟨a, b, h, hlen⟩
  · rw [parseFilename, h]
  · rw [parseFilename_malformed h hlen]

/-! ### Helper lemmas about the polling loop -/

theorem invokesMarked_append (m : List String) (l1 l2 : List Event) :
    invokesMarked m (l1 ++ l2) =
      (invokesMarked m l1 && invokesMarked (marksRevAcc l1 m) l2) := by
  induction l1 generalizing m with
  | nil => simp [invokesMarked, marksRevAcc]
  | cons e l1 ih =>
    cases e with
    | markSeen f => simp [invokesMarked, marksRevAcc, ih]
    | invoke f =>
      by_cases hf : f ∈ m
      · simp [invokesMarked, marksRevAcc, hf, ih]
      · simp [invokesMarked, marksRevAcc, hf]

theorem invokesMarked_processListing (uploadFn : String → PyResult Bool)
    (fs seen m : List String) :
    invokesMarked m (processListing uploadFn seen fs).1 = true := by
  induction fs generalizing seen m with
  | nil => rfl
  | cons f fs ih =>
    by_cases hf : f ∈ seen
    · simp only [processListing, if_pos hf]
      exact ih seen m
    · cases hu : uploadFn f with
      | ok b =>
        simp only [processListing, if_neg hf, hu]
        simp only [invokesMarked, if_pos (List.mem_cons_self f m)]
        exact ih (f :: seen) (f :: m)
      | exn =>
        simp only [processListing, if_neg hf, hu]
        simp only [invokesMarked, if_pos (List.mem_cons_self f m)]

theorem invokesMarked_runPoller (uploadFn : String → PyResult Bool)
    (listings : List (List String)) (seen m : List String) :
    invokesMarked m (runPoller uploadFn seen listings).1 = true := by
  induction listings generalizing seen m with
  | nil => rfl
  | cons listing rest ih =>
    have hpl := invokesMarked_processListing uploadFn listing seen m
    rcases hp : processListing uploadFn seen listing with ⟨evs, r⟩
    rw [hp] at hpl
    cases r with
    | ok seen2 =>
      simp only [runPoller, hp, invokesMarked_append, hpl, Bool.true_and]
      exact ih seen2 (marksRevAcc evs m)
    | exn => simp only [runPoller, hp, hpl]

theorem processListing_invariant (uploadFn : String → PyResult Bool)
    (fs seen : List String) :
    ((processListing uploadFn seen fs).1.filterMap invokedFile).Nodup ∧
    (∀ g ∈ (processListing uploadFn seen fs).1.filterMap invokedFile, g ∉ seen) ∧
    (∀ s2, (processListing uploadFn seen fs).2 = PyResult.ok s2 →
      ∀ x, x ∈ seen ∨ x ∈ (processListing uploadFn seen fs).1.filterMap invokedFile →
        x ∈ s2) := by
  induction fs generalizing seen with
  | nil =>
    refine ⟨by simp [processListing], by simp [processListing], ?_⟩
    intro s2 hs2 x hx
    simp only [processListing] at hs2 hx
    cases hs2
    simpa using hx
  | cons f fs ih =>
    by_cases hf : f ∈ seen
    · simpa only [processListing, if_pos hf] using ih seen
    · cases hu : uploadFn f with
      | ok b =>
        have ih2 := ih (f :: seen)
        simp only [processListing, if_neg hf, hu, List.filterMap_cons, invokedFile]
        refine ⟨?_, ?_, ?_⟩
        · exact List.nodup_cons.2
            ⟨fun hmem => (ih2.2.1 f hmem) (List.mem_cons_self f seen), ih2.1⟩
        · intro g hg
          rcases List.mem_cons.1 hg with rfl | hg
          · exact hf
          · intro hgs
            exact ih2.2.1 g hg (List.mem_cons_of_mem f hgs)
        · intro s2 hs2 x hx
          rcases hx with hx | hx
          · exact ih2.2.2 s2 hs2 x (Or.inl (List.mem_cons_of_mem f hx))
          · rcases List.mem_cons.1 hx with rfl | hx
            · exact ih2.2.2 s2 hs2 x (Or.inl (List.mem_cons_self x seen))
            · exact ih2.2.2 s2 hs2 x (Or.inr hx)
      | exn =>
        simp only [processListing, if_neg hf, hu, List.filterMap_cons, invokedFile]
        refine ⟨by simp, ?_, ?_⟩
        · intro g hg
          rcases List.mem_cons.1 hg with rfl | hg
          · exact hf
          · simp at hg
        · intro s2 hs2
          cases hs2

theorem runPoller_invariant (uploadFn : String → PyResult Bool)
    (listings : List (List String)) (seen : List String) :
    ((runPoller uploadFn seen listings).1.filterMap invokedFile).Nodup ∧
    (∀ g ∈ (runPoller uploadFn seen listings).1.filterMap invokedFile, g ∉ seen) := by
  induction listings generalizing seen with
  | nil => exact ⟨by simp [runPoller], by simp [runPoller]⟩
  | cons listing rest ih =>
    have hpl := processListing_invariant uploadFn listing seen
    rcases hp : processListing uploadFn seen listing with ⟨evs, r⟩
    rw [hp] at hpl
    cases r with
    | ok seen2 =>
      have ih2 := ih seen2
      have hsubset : ∀ x, x ∈ seen ∨ x ∈ evs.filterMap invokedFile → x ∈ seen2 :=
        hpl.2.2 seen2 rfl
      simp only [runPoller, hp, List.filterMap_append]
      constructor
      · refine List.Nodup.append hpl.1 ih2.1 ?_
        intro g hg1 hg2
        exact ih2.2 g hg2 (hsubset g (Or.inr hg1))
      · intro g hg
        rcases List.mem_append.1 hg with hg | hg
        · exact hpl.2.1 g hg
        · intro hgs
          exact ih2.2 g hg (hsubset g (Or.inl hgs))
    | exn =>
      simp only [runPoller, hp]
      exact ⟨hpl.1, hpl.2.1⟩

/-! ### Helper lemmas about upload -/

theorem upload_of_title_none {filename : List Char}
    (metadata : List (List Char × ShowMeta)) (pic : Bool) (net : NetResult)
    (removeFails : Bool) (st : AuthState) (oauthToken : List Char)
    (h : (parseFilename filename).dateStrTitle = none) :
    upload filename metadata pic net removeFails st oauthToken =
      ({ exit := .nameError, audioOpened := true, audioClosed := false,
         picOpened := false, picClosed := false, posts := 0, submitted := none,
         loggedDateWarning := (parseFilename filename).warned,
         loggedAuthWarning := false, loggedRemoveError := false,
         moveAttempted := false }, (get_token st oauthToken).state) := by
  simp only [upload, h]

theorem upload_auth_failure {filename : List Char}
    (metadata : List (List Char × ShowMeta)) (pic removeFails : Bool)
    (st : AuthState) (oauthToken : List Char) (status : Nat) (d : List Char)
    (hds : (parseFilename filename).dateStrTitle = some d)
    (hstatus : status = 401 ∨ status = 403) :
    upload filename metadata pic (NetResult.ok status) removeFails st oauthToken =
      ({ exit := .retFalse, audioOpened := true, audioClosed := true,
         picOpened := pic, picClosed := pic, posts := 1,
         submitted := some (buildSubmission (parseFilename filename).showName
           (parseFilename filename).dateStr d
           (lookupShow metadata (parseFilename filename).showName)),
         loggedDateWarning := (parseFilename filename).warned,
         loggedAuthWarning := true, loggedRemoveError := removeFails,
         moveAttempted := false },
       { token := none,
         stored := if removeFails then (get_token st oauthToken).state.stored
           else none }) := by
  have hne : ¬ status = 200 := by rcases hstatus with rfl | rfl <;> decide
  simp only [upload, hds, if_neg hne, if_pos hstatus]

/-! ### The claims -/

/-- Claim C1, counterexample.  The claim states that every exception
raised while handling a file inside the polling loop is caught and
never propagates out of the loop.  On the code this is false: the loop
body of FolderWatcher.start (lines 248-253) contains no exception
handler, so with a single new file whose upload raises, the exception
propagates out of the poller, as this concrete run shows. -/
theorem C1_claim_counterexample :
    (runPoller (fun _ => PyResult.exn) [] [ ["a.mp3"] ]).2 = PyResult.exn := rfl

/-- Claim C1, amended.  An exception raised by uploader.upload on a
not-yet-seen file is not caught anywhere in FolderWatcher.start: it
propagates out of the polling loop, which therefore does not continue
to the next cycle (no later listing is processed). -/
theorem C1_amended_propagation (uploadFn : String → PyResult Bool) (f : String)
    (seen : List String) (rest : List (List String))
    (h1 : f ∉ seen) (h2 : uploadFn f = PyResult.exn) :
    (runPoller uploadFn seen ([f] :: rest)).2 = PyResult.exn := by
  simp only [runPoller, processListing, if_neg h1, h2]

/-- Claim C1, witness for the amended theorem at a concrete run. -/
theorem C1_amended_propagation_witness :
    ("a.mp3" ∉ ([] : List String)) ∧
    (runPoller (fun _ => PyResult.exn) [] (["a.mp3"] :: [ ["b.mp3"] ])).2 = PyResult.exn :=
  ⟨by simp, C1_amended_propagation (fun _ => PyResult.exn) "a.mp3" [] [ ["b.mp3"] ]
    (by simp) rfl⟩

/-- Claim C2 (code bug), evaluation at the failing input.  For the
filename "My Show 2024.mp3" the last space-separated fragment, after
the replace of .mp3, is "2024", which does not split into three
components.  The code does catch the failure and log the warning (lines
172-174), as the claim says, but it then raises an uncaught NameError
on line 183 because date_str_title was never assigned, so no submission
is built — contradicting the claim that the upload proceeds to build
the submission with an empty date string instead of raising. -/
theorem C2_failing_eval :
    ((upload ("My Show 2024.mp3".data) [] false (NetResult.ok 200) false
        { token := some ("t".data), stored := some ("t".data) } ("o".data)).1.loggedDateWarning
      = true) ∧
    ((upload ("My Show 2024.mp3".data) [] false (NetResult.ok 200) false
        { token := some ("t".data), stored := some ("t".data) } ("o".data)).1.exit
      = UploadExit.nameError) ∧
    ((upload ("My Show 2024.mp3".data) [] false (NetResult.ok 200) false
        { token := some ("t".data), stored := some ("t".data) } ("o".data)).1.submitted
      = none) ∧
    ((upload ("My Show 2024.mp3".data) [] false (NetResult.ok 200) false
        { token := some ("t".data), stored := some ("t".data) } ("o".data)).1.posts
      = 0) := by
  refine ⟨rfl, rfl, rfl, rfl⟩

/-- Claim C3, counterexample.  The claim says that for a filename
without a space the show name is the filename with the (trailing) .mp3
suffix stripped.  The code instead removes every occurrence of .mp3
(str.replace): on the spaceless filename "a.mp3b.mp3" the code produces
show name "ab" while stripping only the trailing suffix would give
"a.mp3b". -/
theorem C3_claim_counterexample :
    (∀ c ∈ ("a.mp3b.mp3".data), c ≠ ' ') ∧
    (parseFilename ("a.mp3b.mp3".data)).showName ≠
      specStripTrailingMp3 ("a.mp3b.mp3".data) := by
  refine ⟨by decide, by decide⟩

/-- Claim C3, amended.  Parsing splits the filename on the last space.
With exactly two parts the first is the show name and the second, with
every occurrence of the substring .mp3 removed, is split on dots;
exactly three components give the date (day, month, year).  Otherwise
the show name is the whole filename with every occurrence of .mp3
removed and no date is produced.  In particular, for every filename of
the form show ++ " " ++ dd ++ "." ++ mm ++ "." ++ yyyy ++ ".mp3" with
all-digit date components (month and year non-empty), the parse yields
the show name and the date (dd, mm, yyyy). -/
theorem C3_amended_parse :
    (∀ sh dd mm yy : List Char,
      (∀ c ∈ dd, c.isDigit = true) → (∀ c ∈ mm, c.isDigit = true) →
      (∀ c ∈ yy, c.isDigit = true) → mm ≠ [] → yy ≠ [] →
      (parseFilename (sh ++ ' ' :: datePartRaw dd mm yy)).showName = sh ∧
      (parseFilename (sh ++ ' ' :: datePartRaw dd mm yy)).date = some (dd, mm, yy)) ∧
    (∀ fn : List Char, (∀ c ∈ fn, c ≠ ' ') →
      (parseFilename fn).showName = replaceMp3 fn ∧ (parseFilename fn).date = none) := by
  constructor
  · intro sh dd mm yy hdd hmm hyy hm hy
    rw [parseFilename_dated hdd hmm hyy hm hy]
    exact ⟨rfl, rfl⟩
  · intro fn h
    rw [parseFilename_nospace h]
    exact ⟨rfl, rfl⟩

/-- Claim C3, witness for the amended theorem at concrete inputs. -/
theorem C3_amended_parse_witness :
    (parseFilename (("My Show".data) ++ ' ' ::
        datePartRaw ("05".data) ("03".data) ("2024".data))).showName = "My Show".data ∧
    (parseFilename (("My Show".data) ++ ' ' ::
        datePartRaw ("05".data) ("03".data) ("2024".data))).date =
      some ("05".data, "03".data, "2024".data) :=
  C3_amended_parse.1 ("My Show".data) ("05".data) ("03".data) ("2024".data)
    (by decide) (by decide) (by decide) (by decide) (by decide)

/-- Claim C4: on every execution path of upload among success, any HTTP
failure status, and an exception raised during the network call (that
is, every path other than the NameError exit, which happens before the
network call), every file handle opened by the call is closed before
the call exits: the audio handle always, and the artwork handle
whenever it was opened. -/
theorem C4_handles_closed (filename : List Char)
    (metadata : List (List Char × ShowMeta)) (pic : Bool) (net : NetResult)
    (removeFails : Bool) (st : AuthState) (oauthToken : List Char)
    (h : (upload filename metadata pic net removeFails st oauthToken).1.exit ≠
      UploadExit.nameError) :
    (upload filename metadata pic net removeFails st oauthToken).1.audioOpened = true ∧
    (upload filename metadata pic net removeFails st oauthToken).1.audioClosed = true ∧
    ((upload filename metadata pic net removeFails st oauthToken).1.picOpened = true →
      (upload filename metadata pic net removeFails st oauthToken).1.picClosed = true) := by
  rcases hds : (parseFilename filename).dateStrTitle with _ | d
  · exact absurd (by simp [upload_of_title_none metadata pic net removeFails st oauthToken hds]) h
  · cases net with
    | exn => simp [upload, hds]
    | ok status =>
      by_cases h200 : status = 200
      · simp [upload, hds, h200]
      · by_cases hauth : status = 401 ∨ status = 403
        · simp [upload, hds, h200, hauth]
        · simp [upload, hds, h200, hauth]

/-- Claim C4, witness at a concrete successful upload. -/
theorem C4_handles_closed_witness :
    ((upload ("A 1.2.3.mp3".data) [] true (NetResult.ok 200) false
        { token := some ("t".data), stored := some ("t".data) } ("o".data)).1.exit ≠
      UploadExit.nameError) ∧
    ((upload ("A 1.2.3.mp3".data) [] true (NetResult.ok 200) false
        { token := some ("t".data), stored := some ("t".data) } ("o".data)).1.audioClosed
      = true) :=
  ⟨by decide,
    (C4_handles_closed ("A 1.2.3.mp3".data) [] true (NetResult.ok 200) false
      { token := some ("t".data), stored := some ("t".data) } ("o".data) (by decide)).2.1⟩

/-- Claim C5: when the POST returns HTTP 401 or 403 on a call that
reaches the network (the date parsed, so no NameError), upload reports
the auth failure (logs the warning and returns False), clears the
in-memory token, removes the token file (a removal failure is logged
and the call still just returns False), makes exactly one POST (no
retry within the call), and — when the removal succeeded — the next
get_token call on the resulting state re-runs the full OAuth flow. -/
theorem C5_auth_failure (filename : List Char)
    (metadata : List (List Char × ShowMeta)) (pic removeFails : Bool)
    (st : AuthState) (oauthToken : List Char) (status : Nat)
    (hdate : (parseFilename filename).dateStrTitle ≠ none)
    (hstatus : status = 401 ∨ status = 403) :
    (upload filename metadata pic (NetResult.ok status) removeFails st oauthToken).1.exit
      = UploadExit.retFalse ∧
    (upload filename metadata pic (NetResult.ok status) removeFails st oauthToken).1.loggedAuthWarning
      = true ∧
    (upload filename metadata pic (NetResult.ok status) removeFails st oauthToken).1.posts
      = 1 ∧
    (upload filename metadata pic (NetResult.ok status) removeFails st oauthToken).2.token
      = none ∧
    (removeFails = true →
      (upload filename metadata pic (NetResult.ok status) removeFails st oauthToken).1.loggedRemoveError
        = true) ∧
    (removeFails = false →
      (upload filename metadata pic (NetResult.ok status) removeFails st oauthToken).2.stored
        = none ∧
      ∀ t2, (get_token
        (upload filename metadata pic (NetResult.ok status) removeFails st oauthToken).2 t2).ranOauth
        = true) := by
  rcases hds : (parseFilename filename).dateStrTitle with _ | d
  · exact absurd hds hdate
  rw [upload_auth_failure metadata pic removeFails st oauthToken status d hds hstatus]
  refine ⟨rfl, rfl, rfl, rfl, fun hr => by rw [hr], fun hr => ?_⟩
  rw [hr]
  exact ⟨rfl, fun t2 => rfl⟩

/-- Claim C5, witness at a concrete 401 response with successful token
file removal. -/
theorem C5_auth_failure_witness :
    ((parseFilename ("A 1.2.3.mp3".data)).dateStrTitle ≠ none) ∧
    ((401 = 401 ∨ 401 = 403)) ∧
    ((upload ("A 1.2.3.mp3".data) [] false (NetResult.ok 401) false
        { token := some ("t".data), stored := some ("t".data) } ("o".data)).2.token = none) :=
  ⟨by decide, Or.inl rfl,
    (C5_auth_failure ("A 1.2.3.mp3".data) [] false false
      { token := some ("t".data), stored := some ("t".data) } ("o".data) 401
      (by decide) (Or.inl rfl)).2.2.2.1⟩

/-- Claim C6: for the filename "Late Night Radio 05.03.2024.mp3" and
the catalog entry with host Ana, bio Selectors. and tag cell
house;ambient, upload submits exactly the title, description and two
indexed tag fields stated in the claim. -/
theorem C6_scenario :
    (upload ("Late Night Radio 05.03.2024.mp3".data)
      [(("Late Night Radio".data),
        { bio := "Selectors.".data, tags := parseTags ("house;ambient".data),
          host := "Ana".data })]
      false (NetResult.ok 200) false
      { token := some ("tok".data), stored := some ("tok".data) } ("o".data)).1.submitted =
    some { name := "Late Night Radio  2024.03.05  w/ Ana".data,
           description :=
             "Selectors.\n\nTracklist: http://dublab.cat/shows/late night radio/2024-03-05".data,
           tagFields := [("tags-0-tag".data, "house".data),
             ("tags-1-tag".data, "ambient".data)] } := by
  decide

/-- Claim C7, counterexample.  The claim says every token string
written by a successful get_token call is returned unchanged by a
subsequent fresh get_token call.  A successful call can write a token
with trailing whitespace (the code only requires truthiness), and the
read-back strips it: the fresh call below returns "abc", not the
written "abc " — though indeed without re-running the OAuth flow. -/
theorem C7_claim_counterexample :
    ((get_token { token := none, stored := none } ("abc ".data)).ranOauth = true) ∧
    ((get_token { token := none, stored := none } ("abc ".data)).state.stored
      = some ("abc ".data)) ∧
    ((get_token { token := none, stored := some ("abc ".data) } ("zzz".data)).ranOauth
      = false) ∧
    ((get_token { token := none, stored := some ("abc ".data) } ("zzz".data)).token
      ≠ "abc ".data) := by
  refine ⟨rfl, rfl, rfl, by decide⟩

/-- Claim C7, amended.  A successful fresh get_token call (empty
in-memory cache, no token file) runs the OAuth flow and writes its
result t to storage; a subsequent get_token call on a fresh
authenticator sharing that storage returns t without re-invoking the
OAuth flow, provided t is unchanged by stripping (no leading or
trailing whitespace) and non-empty — in general the stripped token is
returned. -/
theorem C7_amended_roundtrip (t oauth2 : List Char)
    (h1 : strip t = t) (h2 : t ≠ []) :
    ((get_token { token := none, stored := none } t).ranOauth = true) ∧
    ((get_token { token := none, stored := none } t).state.stored = some t) ∧
    ((get_token { token := none, stored := some t } oauth2).token = t) ∧
    ((get_token { token := none, stored := some t } oauth2).ranOauth = false) := by
  have hne : t.isEmpty = false := by
    cases t with
    | nil => exact absurd rfl h2
    | cons c l => rfl
  refine ⟨rfl, rfl, ?_, ?_⟩
  · simp [get_token, get_token.getTokenNoMem, h1, hne]
  · simp [get_token, get_token.getTokenNoMem, h1, hne]

/-- Claim C7, witness for the amended theorem at a concrete token. -/
theorem C7_amended_roundtrip_witness :
    (strip ("abc".data) = "abc".data) ∧ ("abc".data ≠ ([] : List Char)) ∧
    ((get_token { token := none, stored := some ("abc".data) } ("z".data)).token
      = "abc".data) :=
  ⟨by decide, by decide,
    (C7_amended_roundtrip ("abc".data) ("z".data) (by decide) (by decide)).2.2.1⟩

/-- Claim C8: the submission built by upload carries at most the first
five tags of the catalog entry, as indexed fields whose keys are
tags-0-tag, tags-1-tag, ... in order and whose values are the first
min 5 n tags in catalog order (so an entry with seven tags yields
exactly five fields, in original order). -/
theorem C8_tag_truncation (showName dateStr dateStrTitle bio host : List Char)
    (tags : List (List Char)) :
    ((buildSubmission showName dateStr dateStrTitle
        { bio := bio, tags := tags, host := host }).tagFields.map Prod.snd
      = tags.take 5) ∧
    ((buildSubmission showName dateStr dateStrTitle
        { bio := bio, tags := tags, host := host }).tagFields.map Prod.fst
      = (List.range (min 5 tags.length)).map tagKey) ∧
    ((buildSubmission showName dateStr dateStrTitle
        { bio := bio, tags := tags, host := host }).tagFields.length
      = min 5 tags.length) := by
  have hsnd : (Prod.snd ∘ fun p : Nat × List Char => (tagKey p.1, p.2)) = Prod.snd := rfl
  have hfst : (Prod.fst ∘ fun p : Nat × List Char => (tagKey p.1, p.2)) =
    tagKey ∘ Prod.fst := rfl
  refine ⟨?_, ?_, ?_⟩
  · simp only [buildSubmission, List.map_map, hsnd, List.enum_map_snd]
  · simp only [buildSubmission, List.map_map, hfst]
    rw [← List.map_map, List.enum_map_fst, List.length_take]
  · simp only [buildSubmission, List.length_map, List.enum_length, List.length_take]

/-- Claim C9: over any whole run of the poller starting from the empty
seen set (any upload behaviour, any sequence of directory listings),
every invocation of upload on a file is preceded in the event trace by
the marking of that file as seen, and no file is ever handed to upload
more than once. -/
theorem C9_seen_once (uploadFn : String → PyResult Bool)
    (listings : List (List String)) :
    invokesMarked [] (runPoller uploadFn [] listings).1 = true ∧
    ((runPoller uploadFn [] listings).1.filterMap invokedFile).Nodup :=
  ⟨invokesMarked_runPoller uploadFn listings [] [],
    (runPoller_invariant uploadFn listings []).1⟩

/-- Claim C10: for every filename that does not yield a successfully
parsed three-component date — no space at all, or a malformed last
space-separated fragment — upload raises an uncaught NameError while
building the title: it makes no network request, submits nothing, and
the opened audio handle is never closed (the closing finally block is
not reached). -/
theorem C10_name_error (filename : List Char)
    (metadata : List (List Char × ShowMeta)) (pic : Bool) (net : NetResult)
    (removeFails : Bool) (st : AuthState) (oauthToken : List Char)
    (h : rsplit1 filename = none ∨
      ∃ a b, rsplit1 filename = some (a, b) ∧
        (splitOnChar '.' (replaceMp3 b)).length ≠ 3) :
    (upload filename metadata pic net removeFails st oauthToken).1.exit
      = UploadExit.nameError ∧
    (upload filename metadata pic net removeFails st oauthToken).1.posts = 0 ∧
    (upload filename metadata pic net removeFails st oauthToken).1.submitted = none ∧
    (upload filename metadata pic net removeFails st oauthToken).1.audioOpened = true ∧
    (upload filename metadata pic net removeFails st oauthToken).1.audioClosed = false := by
  have hds := parseFilename_title_none h
  rw [upload_of_title_none metadata pic net removeFails st oauthToken hds]
  exact ⟨rfl, rfl, rfl, rfl, rfl⟩

/-- Claim C10, witness at a concrete spaceless filename. -/
theorem C10_name_error_witness :
    (rsplit1 ("nospace.mp3".data) = none ∨
      ∃ a b, rsplit1 ("nospace.mp3".data) = some (a, b) ∧
        (splitOnChar '.' (replaceMp3 b)).length ≠ 3) ∧
    ((upload ("nospace.mp3".data) [] false (NetResult.ok 200) false
        { token := some ("t".data), stored := some ("t".data) } ("o".data)).1.exit
      = UploadExit.nameError) :=
  ⟨Or.inl (by decide),
    (C10_name_error ("nospace.mp3".data) [] false (NetResult.ok 200) false
      { token := some ("t".data), stored := some ("t".data) } ("o".data)
      (Or.inl (by decide))).1⟩

end Dublab
